import Mathlib

set_option maxRecDepth 4000

/-!
Shallow embedding of the kodexai-modules scrapers, centred on the FoeDB
chunked-store client (`src/assignment_2/ecb_scraper.py`), the related-record
decoder (`_parse_related_publication`), the retrying page fetcher
(`src/assignment_2/utils.py:load_page_content`) and the `Publication`
validation in `src/dbb_scraper.py`.  Python exceptions are modelled with
`Except PyErr`; Python `dict`s as insertion-ordered association lists;
Python ints as `Int` with floor division (`Int.fdiv` / `Int.fmod`), which
matches Python `//` and `%` for the positive divisors used here.
-/

/-- Python exception kinds that the modelled code can raise. -/
inductive PyErr where
  | stopIteration
  | csvError
  | indexError
  | jsonDecodeError
  | typeError
  | zeroDivisionError
  | fetchError
deriving DecidableEq, Repr

/-- JSON values as returned by `json.loads`.  Numbers keep their literal
text, since nothing in the claims compares numeric values. -/
inductive Json where
  | null
  | bool (b : Bool)
  | num (raw : String)
  | str (s : String)
  | arr (elems : List Json)
  | obj (members : List (String × Json))

mutual

/-- Rendering of a `Json` value, used only to display it. -/
def Json.dump : Json → String
  | .null => "null"
  | .bool b => if b then "true" else "false"
  | .num raw => raw
  | .str s => "str(" ++ s ++ ")"
  | .arr l => "[" ++ Json.dumpList l ++ "]"
  | .obj m => "obj(" ++ Json.dumpMembers m ++ ")"

/-- Rendering of a list of `Json` values. -/
def Json.dumpList : List Json → String
  | [] => ""
  | [j] => Json.dump j
  | j :: rest => Json.dump j ++ ", " ++ Json.dumpList rest

/-- Rendering of the members of a `Json` object. -/
def Json.dumpMembers : List (String × Json) → String
  | [] => ""
  | [(k, j)] => k ++ ": " ++ Json.dump j
  | (k, j) :: rest => k ++ ": " ++ Json.dump j ++ ", " ++ Json.dumpMembers rest

end

instance : Repr Json where
  reprPrec j _ := Json.dump j

/-! ### CSV single-row tokenizer

Model of `next(csv.reader(io.StringIO(raw_data)))` with the default dialect
(delimiter `,`, quotechar `"`, doublequote, non-strict), following the
CPython `_csv.c` state machine.  Only the first row is produced, which is
all the Python code consumes. -/

/-- Parser states of the CPython csv state machine (the subset reachable
for the default dialect). -/
inductive CsvSt where
  | startField
  | inField
  | inQuotedField
  | quoteInQuoted
deriving DecidableEq, Repr

/-- One step per character over the row; `cur` is the current field in
reverse, `acc` the fields already finished. -/
def csvScan : List Char → CsvSt → List Char → List String → Except PyErr (List String)
  | [], st, cur, acc =>
    match st with
    | .startField => .ok (acc ++ [String.mk cur.reverse])
    | .inField => .ok (acc ++ [String.mk cur.reverse])
    | .quoteInQuoted => .ok (acc ++ [String.mk cur.reverse])
    | .inQuotedField => .error .csvError
  | c :: rest, st, cur, acc =>
    match st with
    | .startField =>
      if c = '\n' ∨ c = '\r' then .ok (acc ++ [String.mk cur.reverse])
      else if c = '"' then csvScan rest .inQuotedField cur acc
      else if c = ',' then csvScan rest .startField [] (acc ++ [String.mk cur.reverse])
      else csvScan rest .inField (c :: cur) acc
    | .inField =>
      if c = '\n' ∨ c = '\r' then .ok (acc ++ [String.mk cur.reverse])
      else if c = ',' then csvScan rest .startField [] (acc ++ [String.mk cur.reverse])
      else csvScan rest .inField (c :: cur) acc
    | .inQuotedField =>
      if c = '"' then csvScan rest .quoteInQuoted cur acc
      else csvScan rest .inQuotedField (c :: cur) acc
    | .quoteInQuoted =>
      if c = '"' then csvScan rest .inQuotedField (c :: cur) acc
      else if c = ',' then csvScan rest .startField [] (acc ++ [String.mk cur.reverse])
      else if c = '\n' ∨ c = '\r' then .ok (acc ++ [String.mk cur.reverse])
      else csvScan rest .inField (c :: cur) acc

/-- `next(csv.reader(io.StringIO(raw_data)))`: first row of the input, a
`StopIteration` on empty input, a `csv.Error` on an unterminated quoted
field, an empty row for a blank line. -/
def csvParseRow (cs : List Char) : Except PyErr (List String) :=
  match cs with
  | [] => .error .stopIteration
  | c :: rest =>
    if c = '\n' ∨ c = '\r' then .ok []
    else csvScan (c :: rest) .startField [] []

/-! ### Python string helpers -/

/-- `str.replace('\\"', '"')`: left-to-right, non-overlapping. -/
def replaceBsQuote : List Char → List Char
  | '\\' :: '"' :: rest => '"' :: replaceBsQuote rest
  | c :: rest => c :: replaceBsQuote rest
  | [] => []

/-- String-level wrapper of `replaceBsQuote`. -/
def pyReplaceBsQuote (s : String) : String :=
  String.mk (replaceBsQuote s.toList)

/-- `list[i]` for a non-negative index, raising `IndexError` out of range. -/
def pyIndex {α : Type} (l : List α) (i : Nat) : Except PyErr α :=
  match l.get? i with
  | some a => .ok a
  | none => .error .indexError

/-! ### JSON parser (model of `json.loads`)

A recursive-descent parser over `List Char` with a fuel argument; the fuel
passed by `jsonLoads` is `length + 1`, which no input can exhaust because
every recursive call consumes at least one character first. -/

/-- JSON whitespace skipping. -/
def skipWs : List Char → List Char
  | c :: rest =>
    if c = ' ' ∨ c = '\t' ∨ c = '\n' ∨ c = '\r' then skipWs rest else c :: rest
  | [] => []

/-- Value of a hexadecimal digit. -/
def hexVal (c : Char) : Option Nat :=
  if c.isDigit then some (c.toNat - 48)
  else if 'a' ≤ c ∧ c ≤ 'f' then some (c.toNat - 87)
  else if 'A' ≤ c ∧ c ≤ 'F' then some (c.toNat - 55)
  else none

/-- Body of a JSON string literal, after the opening quote; strict mode, so
unescaped control characters are rejected. -/
def parseJStr : List Char → List Char → Except PyErr (String × List Char)
  | [], _ => .error .jsonDecodeError
  | c :: rest, acc =>
    if c = '"' then .ok (String.mk acc.reverse, rest)
    else if c = '\\' then
      match rest with
      | [] => .error .jsonDecodeError
      | e :: rest2 =>
        if e = '"' then parseJStr rest2 ('"' :: acc)
        else if e = '\\' then parseJStr rest2 ('\\' :: acc)
        else if e = '/' then parseJStr rest2 ('/' :: acc)
        else if e = 'b' then parseJStr rest2 (Char.ofNat 8 :: acc)
        else if e = 'f' then parseJStr rest2 (Char.ofNat 12 :: acc)
        else if e = 'n' then parseJStr rest2 ('\n' :: acc)
        else if e = 'r' then parseJStr rest2 ('\r' :: acc)
        else if e = 't' then parseJStr rest2 ('\t' :: acc)
        else if e = 'u' then
          match rest2 with
          | h1 :: h2 :: h3 :: h4 :: rest3 =>
            match hexVal h1, hexVal h2, hexVal h3, hexVal h4 with
            | some a, some b, some c3, some d =>
              parseJStr rest3 (Char.ofNat (a * 4096 + b * 256 + c3 * 16 + d) :: acc)
            | _, _, _, _ => .error .jsonDecodeError
          | _ => .error .jsonDecodeError
        else .error .jsonDecodeError
    else if c.toNat < 32 then .error .jsonDecodeError
    else parseJStr rest (c :: acc)

/-- Longest digit prefix. -/
def takeDigits (cs : List Char) : List Char × List Char :=
  (cs.takeWhile Char.isDigit, cs.dropWhile Char.isDigit)

/-- Optional fraction part `(\.\d+)?` of a JSON number. -/
def jnumFrac (cs : List Char) : Option (List Char × List Char) :=
  match cs with
  | '.' :: r =>
    let (ds, r2) := takeDigits r
    if ds = [] then none else some ('.' :: ds, r2)
  | _ => some ([], cs)

/-- Optional exponent part `([eE][-+]?\d+)?` of a JSON number. -/
def jnumExp (cs : List Char) : Option (List Char × List Char) :=
  match cs with
  | e :: r =>
    if e = 'e' ∨ e = 'E' then
      let signedTail : List Char × List Char :=
        match r with
        | s :: r2 => if s = '+' ∨ s = '-' then ([s], r2) else ([], r)
        | [] => ([], r)
      let (ds, r3) := takeDigits signedTail.2
      if ds = [] then none else some (e :: signedTail.1 ++ ds, r3)
    else some ([], cs)
  | [] => some ([], cs)

/-- JSON number literal per the `json` module's `NUMBER_RE`
(`-?(0|[1-9]\d*)(\.\d+)?([eE][-+]?\d+)?`). -/
def parseJNum (cs : List Char) : Option (String × List Char) :=
  let sign : List Char × List Char :=
    match cs with
    | '-' :: r => (['-'], r)
    | _ => ([], cs)
  match sign.2 with
  | [] => none
  | c :: r =>
    let intPart : Option (List Char × List Char) :=
      if c = '0' then some (['0'], r)
      else if c.isDigit then
        let (ds, r2) := takeDigits r
        some (c :: ds, r2)
      else none
    match intPart with
    | none => none
    | some (ip, r3) =>
      match jnumFrac r3 with
      | none => none
      | some (fp, r4) =>
        match jnumExp r4 with
        | none => none
        | some (ep, r5) =>
          some (String.mk (sign.1 ++ ip ++ fp ++ ep), r5)

mutual

/-- One JSON value starting at `cs` (after fuel check), following the
scanner order of the `json` module: string, `{`, `[`, literals, number,
and the `NaN` / `Infinity` constants. -/
def parseJsonVal : Nat → List Char → Except PyErr (Json × List Char)
  | 0, _ => .error .jsonDecodeError
  | fuel + 1, cs =>
    match skipWs cs with
    | [] => .error .jsonDecodeError
    | c :: rest =>
      if c = '"' then
        match parseJStr rest [] with
        | .ok (s, r) => .ok (Json.str s, r)
        | .error e => .error e
      else if c = '{' then
        match skipWs rest with
        | '}' :: r => .ok (Json.obj [], r)
        | other => parseJsonObjRest fuel [] other
      else if c = '[' then
        match skipWs rest with
        | ']' :: r => .ok (Json.arr [], r)
        | other => parseJsonArrRest fuel [] other
      else if c = 'n' then
        match rest with
        | 'u' :: 'l' :: 'l' :: r => .ok (Json.null, r)
        | _ => .error .jsonDecodeError
      else if c = 't' then
        match rest with
        | 'r' :: 'u' :: 'e' :: r => .ok (Json.bool true, r)
        | _ => .error .jsonDecodeError
      else if c = 'f' then
        match rest with
        | 'a' :: 'l' :: 's' :: 'e' :: r => .ok (Json.bool false, r)
        | _ => .error .jsonDecodeError
      else if c = 'N' then
        match rest with
        | 'a' :: 'N' :: r => .ok (Json.num "NaN", r)
        | _ => .error .jsonDecodeError
      else if c = 'I' then
        match rest with
        | 'n' :: 'f' :: 'i' :: 'n' :: 'i' :: 't' :: 'y' :: r => .ok (Json.num "Infinity", r)
        | _ => .error .jsonDecodeError
      else if c = '-' ∧ rest.head? = some 'I' then
        match rest with
        | 'I' :: 'n' :: 'f' :: 'i' :: 'n' :: 'i' :: 't' :: 'y' :: r =>
          .ok (Json.num "-Infinity", r)
        | _ => .error .jsonDecodeError
      else
        match parseJNum (c :: rest) with
        | some (s, r) => .ok (Json.num s, r)
        | none => .error .jsonDecodeError

/-- Members of a JSON object, positioned at a property name. -/
def parseJsonObjRest : Nat → List (String × Json) → List Char →
    Except PyErr (Json × List Char)
  | 0, _, _ => .error .jsonDecodeError
  | fuel + 1, acc, cs =>
    match cs with
    | '"' :: r =>
      (match parseJStr r [] with
      | .error e => .error e
      | .ok (key, r2) =>
        match skipWs r2 with
        | ':' :: r3 =>
          (match parseJsonVal fuel r3 with
          | .error e => .error e
          | .ok (v, r4) =>
            match skipWs r4 with
            | ',' :: r5 => parseJsonObjRest fuel (acc ++ [(key, v)]) (skipWs r5)
            | '}' :: r5 => .ok (Json.obj (acc ++ [(key, v)]), r5)
            | _ => .error .jsonDecodeError)
        | _ => .error .jsonDecodeError)
    | _ => .error .jsonDecodeError

/-- Elements of a JSON array, positioned at a value. -/
def parseJsonArrRest : Nat → List Json → List Char → Except PyErr (Json × List Char)
  | 0, _, _ => .error .jsonDecodeError
  | fuel + 1, acc, cs =>
    match parseJsonVal fuel cs with
    | .error e => .error e
    | .ok (v, r) =>
      match skipWs r with
      | ',' :: r2 => parseJsonArrRest fuel (acc ++ [v]) r2
      | ']' :: r2 => .ok (Json.arr (acc ++ [v]), r2)
      | _ => .error .jsonDecodeError

end

/-- `json.loads`: one value, then only whitespace may remain
("Extra data" otherwise). -/
def jsonLoads (s : String) : Except PyErr Json :=
  let cs := s.toList
  match parseJsonVal (cs.length + 1) cs with
  | .error e => .error e
  | .ok (v, rest) =>
    if skipWs rest = [] then .ok v else .error .jsonDecodeError

/-! ### Related-publication decoder (`_parse_related_publication`) -/

/-- Decoded sub-record: the dictionary built by `_parse_related_publication`
(`date` sub-dictionary flattened into its three entries). -/
structure RelatedRecord where
  publicationId : String
  timestamp : String
  year : String
  month : String
  day : String
  pdfUrls : Json
  metadata : Json
deriving Repr

/-- `json.loads(fields[i].replace('\\"', '"'))` under the inner
`try/except (json.JSONDecodeError, IndexError)` with fallback `default`;
both possible failures of the expression are among the caught kinds. -/
def parseJsonField (fields : List String) (i : Nat) (default : Json) : Json :=
  match pyIndex fields i with
  | .error _ => default
  | .ok f =>
    match jsonLoads (pyReplaceBsQuote f) with
    | .ok j => j
    | .error _ => default

/-- Body of `_parse_related_publication` after tokenization: positional
fields 0-4 (which can raise `IndexError`), lenient JSON fields 9 and 10. -/
def parseFromFields (fields : List String) : Except PyErr RelatedRecord := do
  let pub_id ← pyIndex fields 0
  let timestamp ← pyIndex fields 1
  let year ← pyIndex fields 2
  let month ← pyIndex fields 3
  let day ← pyIndex fields 4
  let pdf_urls := parseJsonField fields 9 (Json.arr [])
  let metadata := parseJsonField fields 10 (Json.obj [])
  .ok ⟨pub_id, timestamp, year, month, day, pdf_urls, metadata⟩

/-- The `try` body of `_parse_related_publication`. -/
def innerParseRelated (raw : String) : Except PyErr RelatedRecord := do
  let fields ← csvParseRow raw.toList
  parseFromFields fields

/-- `_parse_related_publication`: any exception from the body is caught and
turned into the empty (falsy) dictionary, modelled as `none`. -/
def parse_related_publication (raw : String) : Option RelatedRecord :=
  match innerParseRelated raw with
  | .ok r => some r
  | .error _ => none

/-! ### Python values and records -/

/-- Raw values that can occur in a chunk / record, as far as this code
inspects them: strings, ints, lists, `None`. -/
inductive PyVal where
  | s (v : String)
  | i (n : Int)
  | list (l : List PyVal)
  | noneV

mutual

/-- Rendering of a `PyVal`, used only to display it. -/
def PyVal.dump : PyVal → String
  | .s v => "s(" ++ v ++ ")"
  | .i n => "i(" ++ toString n ++ ")"
  | .noneV => "None"
  | .list l => "[" ++ PyVal.dumpList l ++ "]"

/-- Rendering of a list of `PyVal`s. -/
def PyVal.dumpList : List PyVal → String
  | [] => ""
  | [v] => PyVal.dump v
  | v :: rest => PyVal.dump v ++ ", " ++ PyVal.dumpList rest

end

instance : Repr PyVal where
  reprPrec v _ := PyVal.dump v

/-- A value stored in an assembled record: either a raw value passed
through, or the list of decoded sub-records substituted for the
`relatedPublications` / `childrenPublication` fields. -/
inductive FieldVal where
  | plain (v : PyVal)
  | pubs (l : List RelatedRecord)
deriving Repr

/-- An assembled record: a Python dict as an insertion-ordered
association list. -/
abbrev Record := List (String × FieldVal)

/-- `d[k] = v` on a Python dict: replace in place if present, else append. -/
def dictSet {β : Type} (d : List (String × β)) (k : String) (v : β) :
    List (String × β) :=
  match d with
  | [] => [(k, v)]
  | (k', v') :: rest => if k' = k then (k, v) :: rest else (k', v') :: dictSet rest k v

/-- `d.get(k)` on a Python dict. -/
def dictGet? {β : Type} (d : List (String × β)) (k : String) : Option β :=
  match d with
  | [] => none
  | (k', v) :: rest => if k' = k then some v else dictGet? rest k

/-! ### The FoeDB chunked-store client (`_fetch_foe_db_data` and its
nested functions) -/

/-- `metadata.json` as used by the client. -/
structure Metadata where
  chunk_size : Int
  chunk_group_size : Int
  header : List String
  total_records : Int
  indexes : List String
deriving Repr

/-- One entry of an `index.json` document. -/
structure IndexValue where
  value : String
  total_records : Int
  first_sort_id_per_chunk : List Int
  last_sort_id_per_chunk : List Int
deriving Repr

/-- The per-value index dictionary the bootstrap loop builds. -/
structure IndexEntry where
  index_value_id : Nat
  total_records : Int
  first_sort_id_per_chunk : List Int
  last_sort_id_per_chunk : List Int
  number_of_chunks : Nat
  sort_ids : List Int
deriving Repr

/-- The remote store as seen through `fetch_json`: each field is the
decoded result of fetching one URL, `.error ()` meaning the fetch raised
(unreachable, non-200, or malformed JSON).  `chunks` is addressed like the
data URL `data/{chunk_group_id}/chunk_{chunk_id}.json`, by group directory
and chunk file. -/
structure FoeDbEnv where
  versions : Except Unit (List (String × String))
  metadataFetch : Except Unit Metadata
  indexFetch : String → Except Unit (List IndexValue)
  chunks : Int → Int → Except Unit (List PyVal)

/-- The `loaded_db` dictionary after bootstrap.  `loaded_maps` is never
assigned by this code, so the client built by `_fetch_foe_db_data` always
has `none` here; the field models the `"loaded_maps" in loaded_db` test. -/
structure LoadedDb where
  database_version : String
  database_hash : String
  metadata : Metadata
  indexes : List (String × List (String × IndexEntry))
  loaded_maps : Option (List (String × List PyVal))

/-- Mutable client state: `chunk_cache`, plus a log of the chunk ids for
which a network fetch was issued (in order), to make fetch counts
observable. -/
structure ClientState where
  cache : List (Int × List PyVal)
  log : List Int

/-- Fresh state: empty cache, no fetches issued. -/
def initState : ClientState := ⟨[], []⟩

/-- `chunk_id in chunk_cache` / `chunk_cache[chunk_id]`. -/
def cacheGet? (cache : List (Int × List PyVal)) (cid : Int) : Option (List PyVal) :=
  match cache with
  | [] => none
  | (k, v) :: rest => if k = cid then some v else cacheGet? rest cid

/-- `get_chunk`: serve from cache, else compute the chunk group id, fetch
`data/{chunk_group_id}/chunk_{chunk_id}.json` and cache the decoded chunk
under `chunk_id`.  A failed fetch is logged but never cached. -/
def get_chunk (env : FoeDbEnv) (md : Metadata) (chunk_id : Int) (st : ClientState) :
    Except PyErr (List PyVal) × ClientState :=
  match cacheGet? st.cache chunk_id with
  | some data => (.ok data, st)
  | none =>
    if md.chunk_group_size = 0 then (.error .zeroDivisionError, st)
    else
      match env.chunks (chunk_id.fdiv md.chunk_group_size) chunk_id with
      | .ok data => (.ok data, ⟨st.cache ++ [(chunk_id, data)], st.log ++ [chunk_id]⟩)
      | .error _ => (.error .fetchError, ⟨st.cache, st.log ++ [chunk_id]⟩)

/-- Python slice index normalization for `chunk[start:end]` (step 1). -/
def pySliceIdx (len : Nat) (i : Int) : Nat :=
  if i < 0 then ((len : Int) + i).toNat else min i.toNat len

/-- `l[a:b]` with Python clipping semantics. -/
def pySlice {α : Type} (l : List α) (a b : Int) : List α :=
  (l.take (pySliceIdx l.length b)).drop (pySliceIdx l.length a)

/-- One element of the `relatedPublications` / `childrenPublication`
expansion loop: `if pub and isinstance(pub, str)` then parse, keep if the
parse produced a non-empty (truthy) dict. -/
def parseElem : PyVal → Option RelatedRecord
  | .s str => if str ≠ "" then parse_related_publication str else none
  | _ => none

/-- The expansion loop itself, accumulating `parsed_publications`. -/
def expandRelated (l : List PyVal) : List RelatedRecord :=
  l.foldl (fun acc v => match parseElem v with | some r => acc ++ [r] | none => acc) []

/-- `loaded_db["loaded_maps"][field_name]["index"][data[i]]`: Python list
indexing (negative indexes wrap; non-int subscripts raise `TypeError`).
Dead code in this client, since `loaded_maps` is never loaded. -/
def mapLookupValue (idxList : List PyVal) (v : PyVal) : Except PyErr FieldVal :=
  match v with
  | .i n =>
    let len : Int := idxList.length
    let j : Int := if n < 0 then len + n else n
    if 0 ≤ j ∧ j < len then
      match idxList.get? j.toNat with
      | some e => .ok (.plain e)
      | none => .error .indexError
    else .error .indexError
  | _ => .error .typeError

/-- The non-mapped branch of the field loop: expand the two publication
fields when their value is a list, pass everything else through. -/
def passthroughVal (field_name : String) (v : PyVal) : FieldVal :=
  if field_name = "relatedPublications" ∨ field_name = "childrenPublication" then
    match v with
    | .list l => .pubs (expandRelated l)
    | _ => .plain v
  else .plain v

/-- The `for i, field_name in enumerate(header)` loop of `get_data_by_id`:
`data[i]` raises `IndexError` when the slice is shorter than the header. -/
def assembleFields (maps : Option (List (String × List PyVal))) :
    List String → List PyVal → Nat → Record → Except PyErr Record
  | [], _, _, acc => .ok acc
  | f :: rest, data, i, acc => do
    let v ← pyIndex data i
    let fv ← (match maps with
      | some m =>
        match dictGet? m f with
        | some idxList => mapLookupValue idxList v
        | none => .ok (passthroughVal f v)
      | none => .ok (passthroughVal f v))
    assembleFields maps rest data (i + 1) (dictSet acc f fv)

/-- Record assembly from the sliced raw field values, ending with
`result["$foedb:id"] = sort_id`. -/
def recordFromData (db : LoadedDb) (sort_id : Int) (data : List PyVal) :
    Except PyErr Record :=
  match assembleFields db.loaded_maps db.metadata.header data 0 [] with
  | .error e => .error e
  | .ok r => .ok (dictSet r "$foedb:id" (.plain (.i sort_id)))

/-- `get_data_by_id`: chunk id arithmetic, chunk retrieval through the
cache, slice `chunk[(sort_id % chunk_size) * len(header) : ... + len(header)]`,
record assembly. -/
def get_data_by_id (env : FoeDbEnv) (db : LoadedDb) (sort_id : Int) (st : ClientState) :
    Except PyErr Record × ClientState :=
  if db.metadata.chunk_size = 0 then (.error .zeroDivisionError, st)
  else
    match get_chunk env db.metadata (sort_id.fdiv db.metadata.chunk_size) st with
    | (.error e, st') => (.error e, st')
    | (.ok chunk, st') =>
      (recordFromData db sort_id
        (pySlice chunk
          ((sort_id.fmod db.metadata.chunk_size) * (db.metadata.header.length : Int))
          ((sort_id.fmod db.metadata.chunk_size) * (db.metadata.header.length : Int) +
            (db.metadata.header.length : Int))), st')

/-- A session of resolutions: each call threads the shared cache, whatever
the individual outcome. -/
def runResolves (env : FoeDbEnv) (db : LoadedDb) : List Int → ClientState → ClientState
  | [], st => st
  | sid :: rest, st => runResolves env db rest (get_data_by_id env db sid st).2

/-- `.error ()` from a fetch lifted to the generic exception it raises. -/
def liftFetch {α : Type} : Except Unit α → Except PyErr α
  | .ok a => .ok a
  | .error _ => .error .fetchError

/-- The per-index dictionary built by the bootstrap loop (`enumerate` over
the decoded `index.json`). -/
def buildIndexEntries (vals : List IndexValue) : List (String × IndexEntry) :=
  vals.enum.foldl
    (fun acc p =>
      dictSet acc p.2.value
        ⟨p.1, p.2.total_records, p.2.first_sort_id_per_chunk, p.2.last_sort_id_per_chunk,
         p.2.first_sort_id_per_chunk.length, []⟩)
    []

/-- The `for index in loaded_db["metadata"]["indexes"]` bootstrap loop; any
failed fetch aborts the whole bootstrap. -/
def loadIndexes (env : FoeDbEnv) : List String →
    Except PyErr (List (String × List (String × IndexEntry)))
  | [] => .ok []
  | name :: rest => do
    let vals ← liftFetch (env.indexFetch name)
    let restIdx ← loadIndexes env rest
    .ok ((name, buildIndexEntries vals) :: restIdx)

/-- The `[get_data_by_id(idx) for idx in range(end_idx)]` comprehension:
sequential, shared cache, aborted by the first exception. -/
def fetchLoop (env : FoeDbEnv) (db : LoadedDb) : List Int → ClientState →
    Except PyErr (List Record × ClientState)
  | [], st => .ok ([], st)
  | sid :: rest, st =>
    match get_data_by_id env db sid st with
    | (.error e, _) => .error e
    | (.ok r, st') =>
      match fetchLoop env db rest st' with
      | .error e => .error e
      | .ok (rs, st'') => .ok (r :: rs, st'')

/-- `range(n)` for a possibly negative bound. -/
def rangeInt (n : Int) : List Int := (List.range n.toNat).map Int.ofNat

/-- The `try` body of `_fetch_foe_db_data`: bootstrap (versions, metadata,
indexes), then resolve `range(min(amount_to_fetch, total_records))`. -/
def fetchFoeDbDataInner (env : FoeDbEnv) (amount_to_fetch : Int) :
    Except PyErr (List Record × ClientState) :=
  match liftFetch env.versions with
  | .error e => .error e
  | .ok versions =>
    match pyIndex versions 0 with
    | .error e => .error e
    | .ok v0 =>
      match liftFetch env.metadataFetch with
      | .error e => .error e
      | .ok md =>
        match loadIndexes env md.indexes with
        | .error e => .error e
        | .ok idxs =>
          fetchLoop env ⟨v0.1, v0.2, md, idxs, none⟩
            (rangeInt (min amount_to_fetch md.total_records)) initState

/-- `_fetch_foe_db_data`: the broad `except Exception` turns every failure
into a normal return of the empty list. -/
def fetchFoeDbData (env : FoeDbEnv) (amount_to_fetch : Int) : Except PyErr (List Record) :=
  match fetchFoeDbDataInner env amount_to_fetch with
  | .ok (items, _) => .ok items
  | .error _ => .ok []

/-! ### The retrying page fetcher (`load_page_content`) -/

/-- Outcome of one `requests.get` call: a raised transport exception, or a
response with its `ok` flag (`status_code < 400`) and body. -/
inductive HttpAttempt where
  | transportError
  | response (ok : Bool) (text : String)
deriving DecidableEq, Repr

/-- What `load_page_content` can raise. -/
inductive FetchErr where
  | requestException
  | exhausted
deriving DecidableEq, Repr

/-- The `for attempt in range(3)` loop from attempt number `attempt` with
`fuel` iterations left; returns the result together with how many GET
requests were issued in total.  A transport exception is not caught and
propagates at once; the `for`/`else` raises after three failed responses. -/
def loadFrom (env : Nat → HttpAttempt) (attempt fuel : Nat) : Except FetchErr String × Nat :=
  match fuel with
  | 0 => (.error .exhausted, attempt)
  | fuel + 1 =>
    match env attempt with
    | .transportError => (.error .requestException, attempt + 1)
    | .response ok text =>
      if ok = true ∧ text ≠ "" then (.ok text, attempt + 1)
      else loadFrom env (attempt + 1) fuel

/-- `load_page_content` over an abstract sequence of attempt outcomes. -/
def load_page_content (env : Nat → HttpAttempt) : Except FetchErr String × Nat :=
  loadFrom env 0 3

/-! ### `Publication` validation (`src/dbb_scraper.py`) -/

/-- `MAX_TITLE_LENGTH = 500`. -/
def MAX_TITLE_LENGTH : Nat := 500

/-- `MIN_TITLE_LENGTH = 3`. -/
def MIN_TITLE_LENGTH : Nat := 3

/-- `MAX_RELATED_URLS = 50`. -/
def MAX_RELATED_URLS : Nat := 50

/-- `FUTURE_TOLERANCE = timedelta(days=1)`, in seconds. -/
def FUTURE_TOLERANCE : Int := 86400

/-- The offending value carried by a `ValidationError`. -/
inductive PubVal where
  | vStr (s : String)
  | vInt (n : Int)
  | vNat (n : Nat)
deriving DecidableEq, Repr

/-- `ValidationError(message, field, value)`; its `Exception` payload (what
`str(e)` returns) is `f"{message} - Field: {field}, Value: {value}"`. -/
structure ValidationError where
  message : String
  field : String
  value : PubVal
deriving DecidableEq, Repr

/-- `str(value)` as interpolated by the f-strings of `ValidationError`. -/
def PubVal.pyStr : PubVal → String
  | .vStr s => s
  | .vInt n => toString n
  | .vNat n => toString n

/-- `str(e)` for a raised `ValidationError`: the string passed to
`Exception.__init__`. -/
def ValidationError.pyStr (e : ValidationError) : String :=
  e.message ++ " - Field: " ++ e.field ++ ", Value: " ++ e.value.pyStr

/-- The validated `Publication` dataclass (times as Unix seconds). -/
structure Publication where
  web_title : String
  published_at : Int
  web_url : String
  related_urls : List String
deriving DecidableEq, Repr

/-- Valid scheme characters per `urllib.parse` (after the leading letter).  -/
def validSchemeChars (cs : List Char) : Bool :=
  cs.all (fun c => c.isAlphanum || c == '+' || c == '-' || c == '.')

/-- Scheme splitting of `urllib.parse.urlparse`: a scheme is a non-empty
run before the first `:`, starting with a letter, of scheme characters;
otherwise the whole input stays as the rest. -/
def urlparseScheme (cs : List Char) : String × List Char :=
  let before := cs.takeWhile (fun c => c != ':')
  let after := cs.dropWhile (fun c => c != ':')
  match after with
  | ':' :: rest =>
    match before with
    | [] => ("", cs)
    | c0 :: _ =>
      if c0.isAlpha && validSchemeChars before then
        (String.mk (before.map Char.toLower), rest)
      else ("", cs)
  | _ => ("", cs)

/-- `_splitnetloc`: the netloc characters after `//`, up to the next `/`,
`?` or `#`. -/
def splitNetloc (r : List Char) : List Char :=
  r.takeWhile (fun c => c != '/' && c != '?' && c != '#')

/-- The two components of `urlparse` that `_validate_url` inspects. -/
structure UrlParts where
  scheme : String
  netloc : String
deriving DecidableEq, Repr

/-- `urllib.parse.urlparse`, restricted to scheme and netloc; `urlsplit`
raises `ValueError("Invalid IPv6 URL")` — carried here as the error
string, i.e. the exception's `str` — when the netloc contains `[` without
`]` or `]` without `[`.  (The additional bracketed-host validation of
CPython 3.11+ is version-dependent and not modelled.) -/
def urlparseExc (s : String) : Except String UrlParts :=
  match urlparseScheme s.toList with
  | (sch, '/' :: '/' :: r) =>
    if ((splitNetloc r).contains '[' && !(splitNetloc r).contains ']') ||
        ((splitNetloc r).contains ']' && !(splitNetloc r).contains '[') then
      .error "Invalid IPv6 URL"
    else .ok ⟨sch, String.mk (splitNetloc r)⟩
  | (sch, _) => .ok ⟨sch, ""⟩

/-- `_validate_title` (the `isinstance` check holds by typing). -/
def validate_title (t : String) : Except ValidationError Unit :=
  if MIN_TITLE_LENGTH ≤ t.length ∧ t.length ≤ MAX_TITLE_LENGTH then .ok ()
  else .error ⟨"Title length must be between 3 and 500 characters", "web_title", .vStr t⟩

/-- `_validate_date`; `now` is `datetime.now()` at validation time and
`pastTol` the import-time `PAST_TOLERANCE`, both in seconds. -/
def validate_date (now pastTol published : Int) : Except ValidationError Unit :=
  if now + FUTURE_TOLERANCE < published then
    .error ⟨"Publication date cannot be too far in the future", "published_at", .vInt published⟩
  else if published < now - pastTol then
    .error ⟨"Publication date cannot be too far in the past", "published_at", .vInt published⟩
  else .ok ()

/-- The `try` body of `_validate_url`: `urlparse` may raise `ValueError`,
and `all([parsed.scheme, parsed.netloc])` failing (Python truthiness, i.e.
either component empty) raises `ValidationError("Invalid URL format",
"web_url", url)`.  Either exception's `str` is the error value, for the
handler to interpolate. -/
def validateUrlTry (u : String) : Except String Unit :=
  match urlparseExc u with
  | .error msg => .error msg
  | .ok p =>
    if p.scheme ≠ "" ∧ p.netloc ≠ "" then .ok ()
    else .error (ValidationError.pyStr ⟨"Invalid URL format", "web_url", .vStr u⟩)

/-- `_validate_url`: the `except Exception as e` clause re-catches every
failure of the body — including the inner `ValidationError` itself — and
re-raises `ValidationError(f"URL parsing failed: {str(e)}", "web_url", url)`. -/
def validate_url (u : String) : Except ValidationError Unit :=
  match validateUrlTry u with
  | .ok _ => .ok ()
  | .error eStr => .error ⟨"URL parsing failed: " ++ eStr, "web_url", .vStr u⟩

/-- The `try` body of the per-URL check in `_validate_related_urls`,
analogous to `validateUrlTry`. -/
def validateRelatedUrlTry (u : String) : Except String Unit :=
  match urlparseExc u with
  | .error msg => .error msg
  | .ok p =>
    if p.scheme ≠ "" ∧ p.netloc ≠ "" then .ok ()
    else .error (ValidationError.pyStr ⟨"Invalid related URL format", "related_urls", .vStr u⟩)

/-- The per-URL loop of `_validate_related_urls`: each iteration's
`except Exception as e` re-raises
`ValidationError(f"Related URL parsing failed: {str(e)}", "related_urls", url)`. -/
def validateEachUrl : List String → Except ValidationError Unit
  | [] => .ok ()
  | u :: rest =>
    match validateRelatedUrlTry u with
    | .ok _ => validateEachUrl rest
    | .error eStr => .error ⟨"Related URL parsing failed: " ++ eStr, "related_urls", .vStr u⟩

/-- `_validate_related_urls`. -/
def validate_related_urls (urls : List String) : Except ValidationError Unit :=
  if MAX_RELATED_URLS < urls.length then
    .error ⟨"Too many related URLs (max: 50)", "related_urls", .vNat urls.length⟩
  else validateEachUrl urls

/-- Constructing a `Publication`: `__post_init__` runs the four validators
in order and raises the first failure. -/
def mkPublication (now pastTol : Int) (web_title : String) (published_at : Int)
    (web_url : String) (related_urls : List String) :
    Except ValidationError Publication := do
  validate_title web_title
  validate_date now pastTol published_at
  validate_url web_url
  validate_related_urls related_urls
  .ok ⟨web_title, published_at, web_url, related_urls⟩

/-! ### Concrete inputs used by the claims -/

/-- The embedded sub-record row of the spec's round-trip property: fields
9 and 11 are CSV-quoted strings containing backslash-escaped JSON. -/
def rowC5 : String :=
  "id1,1700000000,2023,11,15,x,x,x,x,\"[\\\"http://a/x.pdf\\\"]\",x,\"\x7b\\\"Title\\\":\\\"T\\\"\x7d\""

/-- Chunk-addressing witness metadata: `chunk_size=100`, `chunk_group_size=10`. -/
def mdW1 : Metadata := ⟨100, 10, ["f1", "f2"], 100000, []⟩

/-- A full chunk for `mdW1`: `chunk_size * len(header) = 200` raw values. -/
def chunkW1 : List PyVal := (List.range 200).map (fun k => PyVal.i k)

/-- Store serving `chunkW1` for every chunk address. -/
def envW1 : FoeDbEnv := ⟨.ok [("v1", "h1")], .ok mdW1, fun _ => .ok [], fun _ _ => .ok chunkW1⟩

/-- Loaded client for `envW1`. -/
def dbW1 : LoadedDb := ⟨"v1", "h1", mdW1, [], none⟩

/-- Small-store metadata of the spec's end-to-end scenario:
`chunk_size=2`, `header=["id","title"]`, `total_records=4`. -/
def mdC4 : Metadata := ⟨2, 10, ["id", "title"], 4, []⟩

/-- First chunk of the end-to-end scenario. -/
def chunk0C4 : List PyVal := [PyVal.s "a", PyVal.s "T1", PyVal.s "b", PyVal.s "T2"]

/-- Second chunk of the end-to-end scenario. -/
def chunk1C4 : List PyVal := [PyVal.s "c", PyVal.s "T3", PyVal.s "d", PyVal.s "T4"]

/-- The end-to-end store: two chunks holding the four records, no indexes
(addresses past the data resolve to an empty chunk document). -/
def envC4 : FoeDbEnv :=
  ⟨.ok [("1737978659", "8AvkKGF3")], .ok mdC4, fun _ => .ok [],
    fun _ c => if c = 0 then .ok chunk0C4 else if c = 1 then .ok chunk1C4 else .ok []⟩

/-- Loaded client for `envC4`, used for cache-session claims. -/
def dbC4 : LoadedDb := ⟨"1737978659", "8AvkKGF3", mdC4, [], none⟩

/-- The records `_fetch_foe_db_data` assembles from `envC4`. -/
def itemsC4 : List Record :=
  [[("id", .plain (.s "a")), ("title", .plain (.s "T1")), ("$foedb:id", .plain (.i 0))],
   [("id", .plain (.s "b")), ("title", .plain (.s "T2")), ("$foedb:id", .plain (.i 1))],
   [("id", .plain (.s "c")), ("title", .plain (.s "T3")), ("$foedb:id", .plain (.i 2))],
   [("id", .plain (.s "d")), ("title", .plain (.s "T4")), ("$foedb:id", .plain (.i 3))]]

/-- The client state after fetching all four records of `envC4`. -/
def stC4 : ClientState := ⟨[(0, chunk0C4), (1, chunk1C4)], [0, 1]⟩

/-- A store whose data fetches all fail (the chunk files do not exist). -/
def envC3 : FoeDbEnv := ⟨.ok [("v1", "h1")], .ok mdC4, fun _ => .ok [], fun _ _ => .error ()⟩

/-- Loaded client for `envC3`. -/
def dbC3 : LoadedDb := ⟨"v1", "h1", mdC4, [], none⟩

/-- A store that is completely unreachable. -/
def envC7bad : FoeDbEnv := ⟨.error (), .error (), fun _ => .error (), fun _ _ => .error ()⟩

/-- A store whose version list resolves but whose metadata fetch fails. -/
def envC7meta : FoeDbEnv := ⟨.ok [("v1", "h1")], .error (), fun _ => .ok [], fun _ _ => .error ()⟩

/-- The cache/fetch-log invariant a session maintains: no chunk id is
fetched twice, and the fetched ids are exactly the cached ones. -/
def CacheInv (st : ClientState) : Prop :=
  st.log.Nodup ∧ ∀ cid : Int, cid ∈ st.log ↔ (cacheGet? st.cache cid).isSome

/-- A failed response attempt for `load_page_content`: a response whose
`ok` flag is false or whose content is empty (the retry condition). -/
def isFailResp : HttpAttempt → Bool
  | .transportError => false
  | .response ok text => !ok || text == ""

/-- An attempt sequence whose first response fails and whose second
succeeds. -/
def envW9 : Nat → HttpAttempt :=
  fun k => if k = 0 then .response false "" else .response true "hello"

/-- A 501-character title. -/
def t501 : String := String.mk (List.replicate 501 'a')

/-! ### Helper lemmas -/

theorem except_bind_ok {ε α β : Type} (a : α) (f : α → Except ε β) :
    (Except.ok a >>= f) = f a := rfl

theorem except_bind_error {ε α β : Type} (e : ε) (f : α → Except ε β) :
    ((Except.error e : Except ε α) >>= f) = .error e := rfl

theorem expand_foldl_aux (l : List PyVal) (acc : List RelatedRecord) :
    l.foldl (fun acc v => match parseElem v with | some r => acc ++ [r] | none => acc) acc
      = acc ++ l.filterMap parseElem := by
  induction l generalizing acc with
  | nil => simp
  | cons v rest ih =>
    simp only [List.foldl_cons, List.filterMap_cons]
    cases h : parseElem v with
    | none => simp only [h, ih]
    | some r => simp [h, ih]

theorem expandRelated_eq_filterMap (l : List PyVal) :
    expandRelated l = l.filterMap parseElem := by
  simpa [expandRelated] using expand_foldl_aux l []

theorem parseFromFields_short (fs : List String) (h : fs.length < 5) :
    parseFromFields fs = .error .indexError := by
  match fs, h with
  | [], _ => rfl
  | [a], _ => rfl
  | [a, b], _ => rfl
  | [a, b, c], _ => rfl
  | [a, b, c, d], _ => rfl

theorem pyIndex_ok {α : Type} (l : List α) (i : Nat) (h : i < l.length) :
    pyIndex l i = .ok (l.get ⟨i, h⟩) := by
  simp [pyIndex, List.getElem?_eq_getElem h]

theorem pyIndex_ok_iff {α : Type} (l : List α) (i : Nat) (a : α) :
    pyIndex l i = .ok a ↔ l.get? i = some a := by
  unfold pyIndex
  cases h : l.get? i <;> simp

/-! ### Claim C5 -/

/-- C5, counterexample: decoding the spec's round-trip row with the code's
decoder does NOT yield `pdfUrls == ["http://a/x.pdf"]` and
`metadata == ("Title": "T")`; the CSV tokenizer consumes the inner quotes
(non-strict quote-in-quoted handling), leaving text that is not JSON, so
both lenient fields fall back to their empty defaults. -/
theorem c5_counterexample :
    parse_related_publication rowC5 =
      some ⟨"id1", "1700000000", "2023", "11", "15", Json.arr [], Json.obj []⟩ ∧
    Json.arr [] ≠ Json.arr [Json.str "http://a/x.pdf"] ∧
    Json.obj [] ≠ Json.obj [("Title", Json.str "T")] := by
  refine ⟨rfl, ?_, ?_⟩ <;> simp

/-- C5, amended: on the spec's row the decoder yields
`publicationId = "id1"`, `timestamp = "1700000000"`, date 2023-11-15, but
`pdfUrls == []` and `metadata == ()`; and in general, whenever field 9 is
absent or does not parse as JSON (after the `\"` un-escaping), decoding
still succeeds with `pdfUrls == []` and the positional fields unaffected. -/
theorem c5_lenient_json_fields :
    (parse_related_publication rowC5 =
      some ⟨"id1", "1700000000", "2023", "11", "15", Json.arr [], Json.obj []⟩) ∧
    (∀ (fields : List String) (h5 : 5 ≤ fields.length),
      (∀ f9, fields.get? 9 = some f9 → ∀ j, jsonLoads (pyReplaceBsQuote f9) ≠ .ok j) →
      ∃ r : RelatedRecord,
        parseFromFields fields = .ok r ∧
        r.pdfUrls = Json.arr [] ∧
        r.publicationId = fields.get ⟨0, by omega⟩ ∧
        r.timestamp = fields.get ⟨1, by omega⟩ ∧
        r.year = fields.get ⟨2, by omega⟩ ∧
        r.month = fields.get ⟨3, by omega⟩ ∧
        r.day = fields.get ⟨4, by omega⟩) := by
  constructor
  · rfl
  · intro fields h5 h9
    have h0 : 0 < fields.length := by omega
    have h1 : 1 < fields.length := by omega
    have h2 : 2 < fields.length := by omega
    have h3 : 3 < fields.length := by omega
    have h4 : 4 < fields.length := by omega
    have hpdf : parseJsonField fields 9 (Json.arr []) = Json.arr [] := by
      unfold parseJsonField
      cases hg : pyIndex fields 9 with
      | error e => rfl
      | ok f9 =>
        show (match jsonLoads (pyReplaceBsQuote f9) with
          | .ok j => j
          | .error _ => Json.arr []) = Json.arr []
        cases hj : jsonLoads (pyReplaceBsQuote f9) with
        | error e => rfl
        | ok j => exact absurd hj (h9 f9 ((pyIndex_ok_iff fields 9 f9).mp hg) j)
    refine ⟨⟨fields.get ⟨0, h0⟩, fields.get ⟨1, h1⟩, fields.get ⟨2, h2⟩,
      fields.get ⟨3, h3⟩, fields.get ⟨4, h4⟩, Json.arr [],
      parseJsonField fields 10 (Json.obj [])⟩, ?_, rfl, rfl, rfl, rfl, rfl, rfl⟩
    simp only [parseFromFields, pyIndex_ok fields 0 h0, pyIndex_ok fields 1 h1,
      pyIndex_ok fields 2 h2, pyIndex_ok fields 3 h3, pyIndex_ok fields 4 h4, hpdf]
    rfl

/-- C5 witness: the general leniency statement applied to a concrete
five-field row without a field 9. -/
theorem c5_lenient_json_fields_witness :
    ∃ r : RelatedRecord,
      parseFromFields ["a", "b", "c", "d", "e"] = .ok r ∧ r.pdfUrls = Json.arr [] := by
  obtain ⟨r, hr, hp, _⟩ :=
    c5_lenient_json_fields.2 ["a", "b", "c", "d", "e"] (by decide)
      (by intro f9 h; simp at h)
  exact ⟨r, hr, hp⟩

/-! ### Claim C6 -/

/-- C6, counterexample: a row that tokenizes to only five comma-separated
fields (fewer than 11) does NOT fail the whole decode: the decoder returns
a full (truthy) record with the two JSON fields defaulted. -/
theorem c6_counterexample :
    csvParseRow ("a,b,c,d,e".toList) = .ok ["a", "b", "c", "d", "e"] ∧
    (["a", "b", "c", "d", "e"] : List String).length < 11 ∧
    parse_related_publication "a,b,c,d,e" =
      some ⟨"a", "b", "c", "d", "e", Json.arr [], Json.obj []⟩ := by
  refine ⟨rfl, by decide, rfl⟩

/-- C6, amended: the whole decode fails only when the row tokenizes to
fewer than FIVE fields (the positional fields 0-4 raise an uncaught
`IndexError`); the missing-field leniency of fields 9 and 10 already covers
rows with 5 to 10 fields.  The caller's expansion loop keeps exactly the
successfully decoded elements, in order, dropping failed ones. -/
theorem c6_short_row_behaviour :
    (∀ (s : String) (fs : List String), csvParseRow s.toList = .ok fs →
      fs.length < 5 → parse_related_publication s = none) ∧
    (∀ l : List PyVal, expandRelated l = l.filterMap parseElem) := by
  constructor
  · intro s fs htok hlen
    have h1 : innerParseRelated s = .error .indexError := by
      unfold innerParseRelated
      rw [htok]
      show parseFromFields fs = _
      exact parseFromFields_short fs hlen
    unfold parse_related_publication
    rw [h1]
  · exact expandRelated_eq_filterMap

/-- C6 witness: a two-field row is dropped whole, and expansion keeps the
decodable neighbours. -/
theorem c6_short_row_behaviour_witness :
    parse_related_publication "a,b" = none ∧
    expandRelated [PyVal.s "a,b", PyVal.s "a,b,c,d,e"] =
      [PyVal.s "a,b", PyVal.s "a,b,c,d,e"].filterMap parseElem := by
  exact ⟨c6_short_row_behaviour.1 "a,b" ["a", "b"] rfl (by decide),
    c6_short_row_behaviour.2 _⟩

/-! ### Claim C10 -/

/-- C10: the decoder is total — every internal failure of
`_parse_related_publication` is caught and becomes the falsy empty dict
(`none`), and the caller's expansion loop over a related/children list is
a pure filter of the successful decodes, so sub-record decoding can never
propagate an exception into record assembly. -/
theorem c10_decode_total :
    (∀ l : List PyVal, expandRelated l = l.filterMap parseElem) ∧
    (∀ (s : String) (e : PyErr), innerParseRelated s = .error e →
      parse_related_publication s = none) := by
  refine ⟨expandRelated_eq_filterMap, ?_⟩
  intro s e h
  unfold parse_related_publication
  rw [h]

/-- C10 witness: the empty string makes the tokenizer raise
`StopIteration`, which the decoder converts to the empty dict. -/
theorem c10_decode_total_witness :
    parse_related_publication "" = none ∧
    expandRelated [PyVal.noneV, PyVal.s ""] = [PyVal.noneV, PyVal.s ""].filterMap parseElem := by
  exact ⟨c10_decode_total.2 "" .stopIteration rfl, c10_decode_total.1 _⟩

theorem dictGet?_dictSet_self {β : Type} (d : List (String × β)) (k : String) (v : β) :
    dictGet? (dictSet d k v) k = some v := by
  induction d with
  | nil => simp [dictSet, dictGet?]
  | cons p rest ih =>
    obtain ⟨a, b⟩ := p
    by_cases hk : a = k
    · simp [dictSet, dictGet?, hk]
    · simp [dictSet, dictGet?, hk, ih]

theorem cacheGet?_append_some {c1 c2 : List (Int × List PyVal)} {k : Int} {d : List PyVal}
    (h : cacheGet? c1 k = some d) : cacheGet? (c1 ++ c2) k = some d := by
  induction c1 with
  | nil => simp [cacheGet?] at h
  | cons p rest ih =>
    obtain ⟨a, b⟩ := p
    simp only [cacheGet?, List.cons_append] at h ⊢
    by_cases hk : a = k
    · rw [if_pos hk] at h ⊢; exact h
    · rw [if_neg hk] at h ⊢; exact ih h

theorem cacheGet?_append_none {c1 c2 : List (Int × List PyVal)} {k : Int}
    (h : cacheGet? c1 k = none) : cacheGet? (c1 ++ c2) k = cacheGet? c2 k := by
  induction c1 with
  | nil => simp
  | cons p rest ih =>
    obtain ⟨a, b⟩ := p
    simp only [cacheGet?, List.cons_append] at h ⊢
    by_cases hk : a = k
    · rw [if_pos hk] at h; cases h
    · rw [if_neg hk] at h ⊢; exact ih h

theorem get_chunk_cached {env : FoeDbEnv} {md : Metadata} {cid : Int} {st : ClientState}
    {data : List PyVal} (h : cacheGet? st.cache cid = some data) :
    get_chunk env md cid st = (.ok data, st) := by
  simp [get_chunk, h]

theorem get_chunk_cache_mono (env : FoeDbEnv) (md : Metadata) (cid : Int) (st : ClientState)
    (k : Int) (d : List PyVal) (h : cacheGet? st.cache k = some d) :
    cacheGet? (get_chunk env md cid st).2.cache k = some d := by
  cases hc : cacheGet? st.cache cid with
  | some data => rw [get_chunk_cached hc]; exact h
  | none =>
    by_cases hg : md.chunk_group_size = 0
    · have hgc : get_chunk env md cid st = (.error .zeroDivisionError, st) := by
        simp [get_chunk, hc, hg]
      rw [hgc]; exact h
    · cases he : env.chunks (cid.fdiv md.chunk_group_size) cid with
      | ok data =>
        have hgc : get_chunk env md cid st =
            (.ok data, ⟨st.cache ++ [(cid, data)], st.log ++ [cid]⟩) := by
          simp [get_chunk, hc, hg, he]
        rw [hgc]; exact cacheGet?_append_some h
      | error u =>
        have hgc : get_chunk env md cid st =
            (.error .fetchError, ⟨st.cache, st.log ++ [cid]⟩) := by
          simp [get_chunk, hc, hg, he]
        rw [hgc]; exact h

theorem get_data_by_id_cache_mono (env : FoeDbEnv) (db : LoadedDb) (sid : Int)
    (st : ClientState) (k : Int) (d : List PyVal) (h : cacheGet? st.cache k = some d) :
    cacheGet? (get_data_by_id env db sid st).2.cache k = some d := by
  have hm := get_chunk_cache_mono env db.metadata (sid.fdiv db.metadata.chunk_size) st k d h
  unfold get_data_by_id
  by_cases hcs : db.metadata.chunk_size = 0
  · simpa [hcs] using h
  · rw [if_neg hcs]
    cases hgc : get_chunk env db.metadata (sid.fdiv db.metadata.chunk_size) st with
    | mk res st1 =>
      rw [hgc] at hm
      cases res <;> simpa using hm

theorem runResolves_cache_mono (env : FoeDbEnv) (db : LoadedDb) (more : List Int) :
    ∀ (st : ClientState) (k : Int) (d : List PyVal), cacheGet? st.cache k = some d →
      cacheGet? (runResolves env db more st).cache k = some d := by
  induction more with
  | nil => intro st k d h; simpa [runResolves] using h
  | cons sid rest ih =>
    intro st k d h
    exact ih _ k d (get_data_by_id_cache_mono env db sid st k d h)

theorem get_chunk_inv (env : FoeDbEnv) (md : Metadata) (cid : Int) (st : ClientState)
    (hOk : ∀ g c, ∃ d, env.chunks g c = .ok d) (h : CacheInv st) :
    CacheInv (get_chunk env md cid st).2 := by
  obtain ⟨hnd, hiff⟩ := h
  cases hc : cacheGet? st.cache cid with
  | some data => rw [get_chunk_cached hc]; exact ⟨hnd, hiff⟩
  | none =>
    by_cases hg : md.chunk_group_size = 0
    · have hgc : get_chunk env md cid st = (.error .zeroDivisionError, st) := by
        simp [get_chunk, hc, hg]
      rw [hgc]; exact ⟨hnd, hiff⟩
    · obtain ⟨d, hd⟩ := hOk (cid.fdiv md.chunk_group_size) cid
      have hgc : get_chunk env md cid st =
          (.ok d, ⟨st.cache ++ [(cid, d)], st.log ++ [cid]⟩) := by
        simp [get_chunk, hc, hg, hd]
      rw [hgc]
      have hno : cid ∉ st.log := by
        intro hmem
        have := (hiff cid).mp hmem
        rw [hc] at this
        simp at this
      constructor
      · simpa [List.nodup_append] using ⟨hnd, hno⟩
      · intro k
        by_cases hk : cacheGet? st.cache k = none
        · have hkl : k ∉ st.log := by
            intro hm
            have := (hiff k).mp hm
            rw [hk] at this
            simp at this
          rw [cacheGet?_append_none hk]
          simp only [List.mem_append, List.mem_singleton, cacheGet?]
          constructor
          · rintro (hm | hm)
            · exact absurd hm hkl
            · simp [hm]
          · intro hs
            by_cases hck : cid = k
            · exact Or.inr hck.symm
            · rw [if_neg hck] at hs; simp [cacheGet?] at hs
        · obtain ⟨dd, hdd⟩ := Option.ne_none_iff_exists'.mp hk
          rw [cacheGet?_append_some hdd]
          have hm : k ∈ st.log := (hiff k).mpr (by simp [hdd])
          simp [List.mem_append, hm]

theorem get_data_by_id_inv (env : FoeDbEnv) (db : LoadedDb) (sid : Int) (st : ClientState)
    (hOk : ∀ g c, ∃ d, env.chunks g c = .ok d) (h : CacheInv st) :
    CacheInv (get_data_by_id env db sid st).2 := by
  have hi := get_chunk_inv env db.metadata (sid.fdiv db.metadata.chunk_size) st hOk h
  unfold get_data_by_id
  by_cases hcs : db.metadata.chunk_size = 0
  · simpa [hcs] using h
  · rw [if_neg hcs]
    cases hgc : get_chunk env db.metadata (sid.fdiv db.metadata.chunk_size) st with
    | mk res st1 =>
      rw [hgc] at hi
      cases res <;> simpa using hi

theorem runResolves_inv (env : FoeDbEnv) (db : LoadedDb) (ids : List Int)
    (hOk : ∀ g c, ∃ d, env.chunks g c = .ok d) :
    ∀ st : ClientState, CacheInv st → CacheInv (runResolves env db ids st) := by
  induction ids with
  | nil => intro st h; simpa [runResolves] using h
  | cons sid rest ih =>
    intro st h
    exact ih _ (get_data_by_id_inv env db sid st hOk h)

theorem initState_inv : CacheInv initState := by
  constructor
  · simp [initState]
  · intro cid
    simp [initState, cacheGet?]

theorem get_data_by_id_id (env : FoeDbEnv) (db : LoadedDb) (sid : Int) (st : ClientState)
    (r : Record) (st' : ClientState) (h : get_data_by_id env db sid st = (.ok r, st')) :
    dictGet? r "$foedb:id" = some (.plain (.i sid)) := by
  unfold get_data_by_id at h
  by_cases hcs : db.metadata.chunk_size = 0
  · rw [if_pos hcs] at h
    cases h
  · rw [if_neg hcs] at h
    cases hgc : get_chunk env db.metadata (sid.fdiv db.metadata.chunk_size) st with
    | mk res st1 =>
      rw [hgc] at h
      cases res with
      | error e => cases h
      | ok chunk =>
        simp only at h
        have h1 : recordFromData db sid
            (pySlice chunk
              ((sid.fmod db.metadata.chunk_size) * (db.metadata.header.length : Int))
              ((sid.fmod db.metadata.chunk_size) * (db.metadata.header.length : Int) +
                (db.metadata.header.length : Int))) = .ok r := congrArg Prod.fst h
    
        unfold recordFromData at h1
        cases ha : assembleFields db.loaded_maps db.metadata.header _ 0 [] with
        | error e => rw [ha] at h1; cases h1
        | ok r0 =>
          rw [ha] at h1
          have : dictSet r0 "$foedb:id" (.plain (.i sid)) = r := by
            cases h1; rfl
          rw [← this]
          exact dictGet?_dictSet_self r0 "$foedb:id" (.plain (.i sid))

theorem fetchLoop_spec (env : FoeDbEnv) (db : LoadedDb) :
    ∀ (ids : List Int) (st : ClientState) (items : List Record) (st' : ClientState),
      fetchLoop env db ids st = .ok (items, st') →
      items.length = ids.length ∧
      ∀ (i : Nat) (r : Record) (sid : Int), items.get? i = some r → ids.get? i = some sid →
        dictGet? r "$foedb:id" = some (.plain (.i sid)) := by
  intro ids
  induction ids with
  | nil =>
    intro st items st' h
    unfold fetchLoop at h
    cases h
    exact ⟨rfl, by intro i r sid hr hs; simp at hs⟩
  | cons sid0 rest ih =>
    intro st items st' h
    unfold fetchLoop at h
    cases hg : get_data_by_id env db sid0 st with
    | mk res st1 =>
      rw [hg] at h
      cases res with
      | error e => cases h
      | ok r0 =>
        simp only at h
        cases hl : fetchLoop env db rest st1 with
        | error e => rw [hl] at h; cases h
        | ok p =>
          obtain ⟨rs, st2⟩ := p
          rw [hl] at h
          cases h
          obtain ⟨ihlen, ihget⟩ := ih st1 rs _ hl
          refine ⟨by simp [ihlen], ?_⟩
          intro i r sid hri hsi
          cases i with
          | zero =>
            simp only [List.get?] at hri hsi
            cases hri; cases hsi
            exact get_data_by_id_id env db sid0 st r0 st1 hg
          | succ n =>
            simp only [List.get?] at hri hsi
            exact ihget n r sid hri hsi

/-! ### Claim C1 -/

/-- C1: record resolution computes `chunk_id = sort_id // chunk_size`,
fetches it from the directory `chunk_group_id = chunk_id // chunk_group_size`
(one fetch, logged under `chunk_id`), and assembles the record from the
chunk slice `data[(sort_id % chunk_size) * len(header) : ... + len(header)]`. -/
theorem c1_chunk_addressing (env : FoeDbEnv) (db : LoadedDb) (sort_id : Int)
    (hcs : 1 ≤ db.metadata.chunk_size) (hgs : 1 ≤ db.metadata.chunk_group_size)
    (_hh : db.metadata.header ≠ []) (chunkData : List PyVal)
    (hfetch : env.chunks
        ((sort_id.fdiv db.metadata.chunk_size).fdiv db.metadata.chunk_group_size)
        (sort_id.fdiv db.metadata.chunk_size) = .ok chunkData) :
    get_data_by_id env db sort_id initState =
      (recordFromData db sort_id
        (pySlice chunkData
          ((sort_id.fmod db.metadata.chunk_size) * (db.metadata.header.length : Int))
          ((sort_id.fmod db.metadata.chunk_size) * (db.metadata.header.length : Int) +
            (db.metadata.header.length : Int))),
       ⟨[(sort_id.fdiv db.metadata.chunk_size, chunkData)],
        [sort_id.fdiv db.metadata.chunk_size]⟩) := by
  have hcs0 : db.metadata.chunk_size ≠ 0 := by omega
  have hgs0 : db.metadata.chunk_group_size ≠ 0 := by omega
  simp [get_data_by_id, get_chunk, initState, cacheGet?, hcs0, hgs0, hfetch]

/-- C1 witness: `chunk_size=100`, `chunk_group_size=10`, `sort_id=1234`
resolves chunk 12 inside group directory 1 and slices entries 68..70. -/
theorem c1_chunk_addressing_witness :
    Int.fdiv 1234 100 = 12 ∧ Int.fdiv 12 10 = 1 ∧ Int.fmod 1234 100 = 34 ∧
    get_data_by_id envW1 dbW1 1234 initState =
      (recordFromData dbW1 1234
        (pySlice chunkW1
          ((Int.fmod 1234 dbW1.metadata.chunk_size) * (dbW1.metadata.header.length : Int))
          ((Int.fmod 1234 dbW1.metadata.chunk_size) * (dbW1.metadata.header.length : Int) +
            (dbW1.metadata.header.length : Int))),
       ⟨[(Int.fdiv 1234 dbW1.metadata.chunk_size, chunkW1)],
        [Int.fdiv 1234 dbW1.metadata.chunk_size]⟩) := by
  refine ⟨by decide, by decide, by decide, ?_⟩
  exact c1_chunk_addressing envW1 dbW1 1234 (by decide) (by decide) (by decide) chunkW1 rfl

/-! ### Claim C2 -/

/-- C2: within one session (any sequence of resolutions over a store whose
chunk fetches succeed), every chunk id is fetched at most once
(`log.Nodup`), the fetched ids are exactly the cached ones, a cached chunk
is served again identically with no fetch and no state change, and a cache
entry is never overwritten or invalidated by later resolutions. -/
theorem c2_chunk_fetched_once (env : FoeDbEnv) (db : LoadedDb)
    (hOk : ∀ g c, ∃ d, env.chunks g c = Except.ok d) (ids : List Int) :
    (runResolves env db ids initState).log.Nodup ∧
    (∀ cid : Int, cid ∈ (runResolves env db ids initState).log ↔
      (cacheGet? (runResolves env db ids initState).cache cid).isSome) ∧
    (∀ (st : ClientState) (cid : Int) (data : List PyVal),
      cacheGet? st.cache cid = some data →
      get_chunk env db.metadata cid st = (.ok data, st)) ∧
    (∀ (st : ClientState) (cid : Int) (data : List PyVal) (more : List Int),
      cacheGet? st.cache cid = some data →
      cacheGet? (runResolves env db more st).cache cid = some data) := by
  have hinv := runResolves_inv env db ids hOk initState initState_inv
  exact ⟨hinv.1, hinv.2,
    fun st cid data h => get_chunk_cached h,
    fun st cid data more h => runResolves_cache_mono env db more st cid data h⟩

/-- C2 witness: a session over the end-to-end store resolving ids
`[0, 1, 2, 3, 0, 1]` fetches each chunk at most once. -/
theorem c2_chunk_fetched_once_witness :
    (runResolves envC4 dbC4 [0, 1, 2, 3, 0, 1] initState).log.Nodup :=
  (c2_chunk_fetched_once envC4 dbC4
    (fun g c => by
      unfold envC4
      by_cases h0 : c = 0
      · exact ⟨chunk0C4, by simp [h0]⟩
      · by_cases h1 : c = 1
        · exact ⟨chunk1C4, by simp [h0, h1]⟩
        · exact ⟨[], by simp [h0, h1]⟩)
    [0, 1, 2, 3, 0, 1]).1

/-! ### Claim C3 -/

/-- C3, counterexample: resolving the out-of-range `sort_id = 4` in a
store with `total_records = 4` does NOT fail with a `RecordOutOfRange` and
DOES issue a network fetch: the client computes chunk 2 and fetches it
(log `[2]`), and the failure surfaced is the generic fetch error — the
code has no bounds check and no `RecordOutOfRange` error at all. -/
theorem c3_counterexample :
    dbC3.metadata.total_records ≤ 4 ∧
    get_data_by_id envC3 dbC3 4 initState = (.error .fetchError, ⟨[], [2]⟩) := by
  exact ⟨by decide, rfl⟩

/-- C3, amended: resolution performs no bounds check; for any out-of-range
`sort_id` (negative or `≥ total_records`) the client performs the same
chunk arithmetic and issues exactly one network fetch for chunk
`sort_id // chunk_size` (cold cache); whatever failure results is the
underlying fetch or slicing error, not a `RecordOutOfRange`. -/
theorem c3_no_bounds_check (env : FoeDbEnv) (db : LoadedDb) (sort_id : Int)
    (_hout : sort_id < 0 ∨ db.metadata.total_records ≤ sort_id)
    (hcs : 1 ≤ db.metadata.chunk_size) (hgs : 1 ≤ db.metadata.chunk_group_size) :
    (get_data_by_id env db sort_id initState).2.log =
      [sort_id.fdiv db.metadata.chunk_size] := by
  have hcs0 : db.metadata.chunk_size ≠ 0 := by omega
  have hgs0 : db.metadata.chunk_group_size ≠ 0 := by omega
  cases hf : env.chunks ((sort_id.fdiv db.metadata.chunk_size).fdiv db.metadata.chunk_group_size)
      (sort_id.fdiv db.metadata.chunk_size) with
  | ok d => simp [get_data_by_id, get_chunk, initState, cacheGet?, hcs0, hgs0, hf]
  | error u => simp [get_data_by_id, get_chunk, initState, cacheGet?, hcs0, hgs0, hf]

/-- C3 witness: the amended statement at the concrete store, `sort_id = 5`. -/
theorem c3_no_bounds_check_witness :
    (get_data_by_id envC3 dbC3 5 initState).2.log = [Int.fdiv 5 dbC3.metadata.chunk_size] :=
  c3_no_bounds_check envC3 dbC3 5 (Or.inr (by decide)) (by decide) (by decide)

/-! ### Claim C4 -/

/-- C4: a successful `_fetch_foe_db_data(amount_to_fetch = n)` run returns
exactly `min(n, total_records)` records, resolved for sort ids
`0 .. min(n, total_records) - 1` in ascending order: the record at
position `i` carries the synthetic `"$foedb:id"` field equal to `i`. -/
theorem c4_fetch_ascending (env : FoeDbEnv) (n : Int) (_hn : 0 ≤ n)
    (items : List Record) (stf : ClientState)
    (h : fetchFoeDbDataInner env n = .ok (items, stf)) :
    fetchFoeDbData env n = .ok items ∧
    (∃ md : Metadata, env.metadataFetch = .ok md ∧
      items.length = (min n md.total_records).toNat) ∧
    (∀ (i : Nat) (r : Record), items.get? i = some r →
      dictGet? r "$foedb:id" = some (.plain (.i (i : Int)))) := by
  refine ⟨by simp [fetchFoeDbData, h], ?_⟩
  unfold fetchFoeDbDataInner at h
  cases hv : env.versions with
  | error u => rw [hv] at h; cases h
  | ok vs =>
    rw [hv] at h
    cases vs with
    | nil => cases h
    | cons v0 vrest =>
      cases hm : env.metadataFetch with
      | error u => rw [hm] at h; cases h
      | ok md =>
        rw [hm] at h
        have h1 : (match loadIndexes env md.indexes with
            | .error e => (.error e : Except PyErr (List Record × ClientState))
            | .ok idxs => fetchLoop env ⟨v0.1, v0.2, md, idxs, none⟩
                (rangeInt (min n md.total_records)) initState) = .ok (items, stf) := h
        cases hi : loadIndexes env md.indexes with
        | error e => rw [hi] at h1; cases h1
        | ok idxs =>
          rw [hi] at h1
          have h2 : fetchLoop env ⟨v0.1, v0.2, md, idxs, none⟩
              (rangeInt (min n md.total_records)) initState = .ok (items, stf) := h1
          obtain ⟨hlen, hget⟩ := fetchLoop_spec env _ _ _ _ _ h2
          have hrlen : (rangeInt (min n md.total_records)).length =
              (min n md.total_records).toNat := by
            simp [rangeInt]
          refine ⟨⟨md, rfl, by rw [hlen, hrlen]⟩, ?_⟩
          intro i r hr
          have hlt : i < items.length := by
            rcases List.get?_eq_some.mp hr with ⟨hw, _⟩
            exact hw
          have hid : (rangeInt (min n md.total_records)).get? i = some (i : Int) := by
            rw [hlen, hrlen] at hlt
            unfold rangeInt
            rw [List.get?_eq_getElem?, List.getElem?_map, List.getElem?_range hlt]
            rfl
          exact hget i r (i : Int) hr hid

/-- C4 witness: the end-to-end store (`total_records = 4`) with
`amount_to_fetch = 10` yields exactly the four records, ids `0..3`. -/
theorem c4_fetch_ascending_witness :
    fetchFoeDbData envC4 10 = .ok itemsC4 ∧
    itemsC4.length = ((min (10 : Int) 4).toNat) ∧
    (∀ (i : Nat) (r : Record), itemsC4.get? i = some r →
      dictGet? r "$foedb:id" = some (.plain (.i (i : Int)))) := by
  have h := c4_fetch_ascending envC4 10 (by decide) itemsC4 stC4 rfl
  refine ⟨h.1, ?_, h.2.2⟩
  obtain ⟨md, hmd, hlen⟩ := h.2.1
  have : md = mdC4 := by
    have : Except.ok md = Except.ok mdC4 := hmd.symm.trans rfl
    cases this
    rfl
  rw [hlen, this]
  rfl

/-! ### Claim C7 -/

/-- C7, counterexample: with the store completely unreachable the fetch
does NOT surface a fatal error — the broad `except Exception` makes
`_fetch_foe_db_data` complete normally with an empty record list, which is
indistinguishable from a store with zero records. -/
theorem c7_counterexample :
    fetchFoeDbData envC7bad 10 = .ok [] ∧
    ∀ e : PyErr, fetchFoeDbData envC7bad 10 ≠ .error e := by
  refine ⟨rfl, ?_⟩
  intro e h
  rw [show fetchFoeDbData envC7bad 10 = .ok [] from rfl] at h
  cases h

/-- C7, amended: on every bootstrap failure (version list unreachable or
malformed, version list empty, or metadata fetch failing) the broad
exception handler catches the error and `_fetch_foe_db_data` returns the
empty list as a normal result; no error is surfaced to the caller. -/
theorem c7_bootstrap_swallowed (env : FoeDbEnv) (n : Int)
    (h : env.versions = .error () ∨ env.versions = .ok [] ∨ env.metadataFetch = .error ()) :
    fetchFoeDbData env n = .ok [] := by
  rcases h with h | h | h
  · simp [fetchFoeDbData, fetchFoeDbDataInner, h, liftFetch]
  · simp [fetchFoeDbData, fetchFoeDbDataInner, h, liftFetch, pyIndex]
  · cases hv : env.versions with
    | error u => simp [fetchFoeDbData, fetchFoeDbDataInner, hv, liftFetch]
    | ok vs =>
      cases vs with
      | nil => simp [fetchFoeDbData, fetchFoeDbDataInner, hv, liftFetch, pyIndex]
      | cons v0 vrest =>
        simp [fetchFoeDbData, fetchFoeDbDataInner, hv, h, liftFetch, pyIndex]

/-- C7 witness: a store whose metadata fetch fails bootstraps to the empty
list. -/
theorem c7_bootstrap_swallowed_witness : fetchFoeDbData envC7meta 10 = .ok [] :=
  c7_bootstrap_swallowed envC7meta 10 (Or.inr (Or.inr rfl))

/-! ### Claim C8 -/

/-- C8: `Publication` validation — a title of length 501 fails with a
`ValidationError` naming `web_title` and the title; a `published_at` two
days past `now` fails naming `published_at` and the date; a `web_url`
without scheme or netloc fails naming `web_url` and the URL (the inner
`"Invalid URL format"` error is re-caught by `_validate_url`'s own
`except Exception` and re-raised with the message
`"URL parsing failed: {str(e)}"`, still carrying the field and value). -/
theorem c8_publication_validation (now pastTol : Int) (hpt : 0 ≤ pastTol) :
    (∀ (t : String) (pub : Int) (url : String) (rel : List String), t.length = 501 →
      mkPublication now pastTol t pub url rel =
        .error ⟨"Title length must be between 3 and 500 characters", "web_title", .vStr t⟩) ∧
    (∀ (t : String) (url : String) (rel : List String),
      MIN_TITLE_LENGTH ≤ t.length → t.length ≤ MAX_TITLE_LENGTH →
      mkPublication now pastTol t (now + 2 * 86400) url rel =
        .error ⟨"Publication date cannot be too far in the future", "published_at",
          .vInt (now + 2 * 86400)⟩) ∧
    (∀ (t : String) (url : String) (rel : List String) (p : UrlParts),
      MIN_TITLE_LENGTH ≤ t.length → t.length ≤ MAX_TITLE_LENGTH →
      urlparseExc url = .ok p → (p.scheme = "" ∨ p.netloc = "") →
      mkPublication now pastTol t now url rel =
        .error ⟨"URL parsing failed: " ++
            ValidationError.pyStr ⟨"Invalid URL format", "web_url", .vStr url⟩,
          "web_url", .vStr url⟩) := by
  refine ⟨?_, ?_, ?_⟩
  · intro t pub url rel ht
    have hcond : ¬ (MIN_TITLE_LENGTH ≤ t.length ∧ t.length ≤ MAX_TITLE_LENGTH) := by
      rw [ht]
      simp [MIN_TITLE_LENGTH, MAX_TITLE_LENGTH]
    have h1 : validate_title t =
        .error ⟨"Title length must be between 3 and 500 characters", "web_title", .vStr t⟩ := by
      unfold validate_title
      rw [if_neg hcond]
    simp only [mkPublication, h1, except_bind_error]
  · intro t url rel hmin hmax
    have h1 : validate_title t = .ok () := by
      unfold validate_title
      rw [if_pos ⟨hmin, hmax⟩]
    have h2 : validate_date now pastTol (now + 2 * 86400) =
        .error ⟨"Publication date cannot be too far in the future", "published_at",
          .vInt (now + 2 * 86400)⟩ := by
      unfold validate_date
      rw [if_pos (by unfold FUTURE_TOLERANCE; omega)]
    simp only [mkPublication, h1, except_bind_ok, h2, except_bind_error]
  · intro t url rel p hmin hmax hup hempty
    have h1 : validate_title t = .ok () := by
      unfold validate_title
      rw [if_pos ⟨hmin, hmax⟩]
    have h2 : validate_date now pastTol now = .ok () := by
      unfold validate_date
      rw [if_neg (by unfold FUTURE_TOLERANCE; omega), if_neg (by omega)]
    have hc : ¬ (p.scheme ≠ "" ∧ p.netloc ≠ "") := by
      rcases hempty with h | h
      · exact fun hx => hx.1 h
      · exact fun hx => hx.2 h
    have hbody : validateUrlTry url =
        .error (ValidationError.pyStr ⟨"Invalid URL format", "web_url", .vStr url⟩) := by
      unfold validateUrlTry
      rw [hup]
      show (if p.scheme ≠ "" ∧ p.netloc ≠ "" then (Except.ok () : Except String Unit)
        else .error (ValidationError.pyStr ⟨"Invalid URL format", "web_url", .vStr url⟩)) = _
      rw [if_neg hc]
    have h3 : validate_url url =
        .error ⟨"URL parsing failed: " ++
            ValidationError.pyStr ⟨"Invalid URL format", "web_url", .vStr url⟩,
          "web_url", .vStr url⟩ := by
      unfold validate_url
      rw [hbody]
    simp only [mkPublication, h1, h2, except_bind_ok, h3, except_bind_error]

/-- C8 witness: the three failures at concrete inputs
(`now = 0`, import-time past tolerance `0`). -/
theorem c8_publication_validation_witness :
    mkPublication 0 0 t501 0 "https://example.org/x" [] =
      .error ⟨"Title length must be between 3 and 500 characters", "web_title", .vStr t501⟩ ∧
    mkPublication 0 0 "Valid title" (0 + 2 * 86400) "https://example.org/x" [] =
      .error ⟨"Publication date cannot be too far in the future", "published_at",
        .vInt (0 + 2 * 86400)⟩ ∧
    mkPublication 0 0 "Valid title" 0 "not-a-url" [] =
      .error ⟨"URL parsing failed: Invalid URL format - Field: web_url, Value: not-a-url",
        "web_url", .vStr "not-a-url"⟩ := by
  have h := c8_publication_validation 0 0 (by omega)
  refine ⟨h.1 t501 0 "https://example.org/x" []
    (by show (List.replicate 501 'a').length = 501; rw [List.length_replicate]), ?_, ?_⟩
  · exact h.2.1 "Valid title" "https://example.org/x" [] (by decide) (by decide)
  · exact h.2.2 "Valid title" "not-a-url" [] ⟨"", ""⟩ (by decide) (by decide) rfl (Or.inl rfl)

/-! ### Claim C9 -/

theorem loadFrom_fail (env : Nat → HttpAttempt) (a fuel : Nat)
    (h : isFailResp (env a) = true) :
    loadFrom env a (fuel + 1) = loadFrom env (a + 1) fuel := by
  cases he : env a with
  | transportError => rw [he] at h; simp [isFailResp] at h
  | response ok text =>
    rw [he] at h
    simp only [isFailResp, Bool.or_eq_true, Bool.not_eq_true', beq_iff_eq] at h
    have hc : ¬ (ok = true ∧ text ≠ "") := by
      rcases h with h | h
      · exact fun hx => by rw [hx.1] at h; cases h
      · exact fun hx => hx.2 h
    show (match env a with
      | .transportError => ((.error .requestException : Except FetchErr String), a + 1)
      | .response ok text =>
        if ok = true ∧ text ≠ "" then (.ok text, a + 1)
        else loadFrom env (a + 1) fuel) = loadFrom env (a + 1) fuel
    rw [he]
    show (if ok = true ∧ text ≠ "" then ((.ok text : Except FetchErr String), a + 1)
      else loadFrom env (a + 1) fuel) = loadFrom env (a + 1) fuel
    rw [if_neg hc]

theorem loadFrom_transport (env : Nat → HttpAttempt) (a fuel : Nat)
    (h : env a = .transportError) :
    loadFrom env a (fuel + 1) = (.error .requestException, a + 1) := by
  show (match env a with
    | .transportError => ((.error .requestException : Except FetchErr String), a + 1)
    | .response ok text =>
      if ok = true ∧ text ≠ "" then (.ok text, a + 1)
      else loadFrom env (a + 1) fuel) = (.error .requestException, a + 1)
  rw [h]

theorem loadFrom_success (env : Nat → HttpAttempt) (a fuel : Nat) (text : String)
    (h : env a = .response true text) (ht : text ≠ "") :
    loadFrom env a (fuel + 1) = (.ok text, a + 1) := by
  show (match env a with
    | .transportError => ((.error .requestException : Except FetchErr String), a + 1)
    | .response ok text =>
      if ok = true ∧ text ≠ "" then (.ok text, a + 1)
      else loadFrom env (a + 1) fuel) = (.ok text, a + 1)
  rw [h]
  show (if (true : Bool) = true ∧ text ≠ "" then ((.ok text : Except FetchErr String), a + 1)
    else loadFrom env (a + 1) fuel) = (.ok text, a + 1)
  rw [if_pos ⟨rfl, ht⟩]

/-- C9, counterexample: a transport error on the very first attempt is NOT
retried — the exception from `requests.get` is not caught by the loop, so
it propagates after a single GET, and the terminal
"failed after 3 attempts" error is never reached. -/
theorem c9_counterexample :
    load_page_content (fun _ => .transportError) = (.error .requestException, 1) ∧
    FetchErr.requestException ≠ FetchErr.exhausted := by
  exact ⟨rfl, by decide⟩

/-- C9, amended: `load_page_content` retries only failed responses
(non-ok status or empty content), up to 3 attempts: three failed responses
raise the terminal error after exactly 3 GETs; a success on attempt `i`
returns the response text after `i+1` GETs; a transport error on attempt
`i` propagates immediately after `i+1` GETs without being retried. -/
theorem c9_retry_on_status_only (env : Nat → HttpAttempt) :
    ((∀ k, k < 3 → isFailResp (env k) = true) →
      load_page_content env = (.error .exhausted, 3)) ∧
    (∀ (i : Nat) (text : String), i < 3 → (∀ k, k < i → isFailResp (env k) = true) →
      env i = .response true text → text ≠ "" →
      load_page_content env = (.ok text, i + 1)) ∧
    (∀ i : Nat, i < 3 → (∀ k, k < i → isFailResp (env k) = true) →
      env i = .transportError →
      load_page_content env = (.error .requestException, i + 1)) := by
  refine ⟨?_, ?_, ?_⟩
  · intro hall
    unfold load_page_content
    rw [loadFrom_fail env 0 2 (hall 0 (by omega)),
      loadFrom_fail env 1 1 (hall 1 (by omega)),
      loadFrom_fail env 2 0 (hall 2 (by omega))]
    rfl
  · intro i text hi hprev henv ht
    unfold load_page_content
    interval_cases i
    · exact loadFrom_success env 0 2 text henv ht
    · rw [loadFrom_fail env 0 2 (hprev 0 (by omega))]
      exact loadFrom_success env 1 1 text henv ht
    · rw [loadFrom_fail env 0 2 (hprev 0 (by omega)),
        loadFrom_fail env 1 1 (hprev 1 (by omega))]
      exact loadFrom_success env 2 0 text henv ht
  · intro i hi hprev henv
    unfold load_page_content
    interval_cases i
    · exact loadFrom_transport env 0 2 henv
    · rw [loadFrom_fail env 0 2 (hprev 0 (by omega))]
      exact loadFrom_transport env 1 1 henv
    · rw [loadFrom_fail env 0 2 (hprev 0 (by omega)),
        loadFrom_fail env 1 1 (hprev 1 (by omega))]
      exact loadFrom_transport env 2 0 henv

/-- C9 witness: one failed response, then a successful one: two GETs,
text returned. -/
theorem c9_retry_on_status_only_witness :
    load_page_content envW9 = (.ok "hello", 2) := by
  refine (c9_retry_on_status_only envW9).2.1 1 "hello" (by omega) ?_ rfl (by decide)
  intro k hk
  interval_cases k
  rfl
